import Mathlib

/-!
Verification of `backtesting_support.py` (class `BackTesting`) against its
natural-language specification.

The Python code is shallowly embedded below.  Dates are triples of naturals,
pandas dataframes are Lean lists of row structures, Python `float` arithmetic
is idealised as exact rational (`ℚ`) arithmetic (with `Real.log` interpreting
`np.log`), and fallible Python code (exceptions, `None` returns) is embedded
with `Option`/`Except`.
-/

namespace Backtesting

/-! ## Calendar model

`datetime.date` values are triples `(y, m, d)`.  `Date.valid` states the
constructor's own validation (`datetime.MINYEAR = 1`, `datetime.MAXYEAR =
9999`, day within the month).
-/

/-- A `datetime.date` value: year, month, day. -/
structure Date where
  y : Nat
  m : Nat
  d : Nat
deriving DecidableEq, Repr

/-- Gregorian leap-year rule, as used by `datetime` / `dateutil`. -/
def isLeapYear (y : Nat) : Bool :=
  y % 4 == 0 && (y % 100 != 0 || y % 400 == 0)

/-- Number of days in month `m` of year `y`. -/
def daysInMonth (y m : Nat) : Nat :=
  if m = 2 then (if isLeapYear y then 29 else 28)
  else if m = 4 ∨ m = 6 ∨ m = 9 ∨ m = 11 then 30
  else 31

/-- The validation performed by the `datetime.date` constructor. -/
def Date.valid (dt : Date) : Prop :=
  1 ≤ dt.y ∧ dt.y ≤ 9999 ∧ 1 ≤ dt.m ∧ dt.m ≤ 12 ∧ 1 ≤ dt.d ∧ dt.d ≤ daysInMonth dt.y dt.m

instance (dt : Date) : Decidable dt.valid := by
  unfold Date.valid; infer_instance

/-- Days of the proleptic Gregorian calendar strictly before year `y`,
CPython's `datetime._days_before_year`. -/
def daysBeforeYear (y : Nat) : Nat :=
  (y - 1) * 365 + (y - 1) / 4 - (y - 1) / 100 + (y - 1) / 400

/-- Cumulative day counts before each month in a non-leap year,
CPython's `_DAYS_BEFORE_MONTH` table. -/
def daysBeforeMonthTable (m : Nat) : Nat :=
  match m with
  | 1 => 0 | 2 => 31 | 3 => 59 | 4 => 90 | 5 => 120 | 6 => 151
  | 7 => 181 | 8 => 212 | 9 => 243 | 10 => 273 | 11 => 304 | 12 => 334
  | _ => 0

/-- Days in year `y` strictly before month `m`, CPython's
`datetime._days_before_month`. -/
def daysBeforeMonth (y m : Nat) : Nat :=
  daysBeforeMonthTable m + (if 2 < m ∧ isLeapYear y then 1 else 0)

/-- `datetime.date.toordinal`: day number of the date in the proleptic
Gregorian calendar, with `0001-01-01` being day 1 (CPython's `_ymd2ord`). -/
def toOrdinal (dt : Date) : Nat :=
  daysBeforeYear dt.y + daysBeforeMonth dt.y dt.m + dt.d

/-- `(b - a).days` for two `datetime.date` values: Python date subtraction
yields a `timedelta` whose day count is the difference of the ordinals. -/
def daysBetween (a b : Date) : Int :=
  (toOrdinal b : Int) - (toOrdinal a : Int)

/-- `date + relativedelta(months = months)` from `dateutil`: advance the
month (carrying into the year) and clamp the day to the length of the target
month. -/
def addMonths (dt : Date) (months : Nat) : Date :=
  let tm := dt.m - 1 + months
  let y := dt.y + tm / 12
  let m := tm % 12 + 1
  { y := y, m := m, d := min dt.d (daysInMonth y m) }

/-! ## `get_backtestign_start_date` and `get_backtesting_end_date` -/

/-- Embeds `get_backtestign_start_date`, lines 218-237: given the parsed
reference date (`get_datetime_format` is embedded separately as
`getDatetimeFormat`), the upper limit is
`start_date_datetime + relativedelta(months = month_interval)`. -/
def upperDateLimit (R : Date) (monthInterval : Nat) : Date :=
  addMonths R monthInterval

/-- Embeds the sampled date of `get_backtestign_start_date`:
`backtesting_start_date = start_date_datetime + timedelta(days = r)` where
`r = randrange(days_between_dates)`.  CPython `date` plus `timedelta` is
`date.fromordinal(date.toordinal() + days)`, and `date` comparison agrees
with comparison of ordinals, so the sampled date is represented here by its
`toordinal` value. -/
def backtestingStartOrdinal (R : Date) (r : Nat) : Nat :=
  toOrdinal R + r

/-- Embeds `get_backtesting_end_date`, lines 240-249:
`backtesting_end_date = date + relativedelta(years = years)`.  `relativedelta`
keeps the month and clamps the day to the length of the month in the target
year (so Feb 29 becomes Feb 28 in a non-leap year). -/
def getBacktestingEndDate (date : Date) (years : Nat) : Date :=
  let y := date.y + years
  { y := y, m := date.m, d := min date.d (daysInMonth y date.m) }

/-! ## `get_datetime_format` and `get_date_string_format`

Date strings are embedded as their character lists.
-/

/-- The character of digit `n < 10` (the code of `'0'` is 48). -/
def digitChar (n : Nat) : Char := Char.ofNat (48 + n)

/-- Whether `c` is an ASCII decimal digit. -/
def isDigitCharB (c : Char) : Bool := 48 ≤ c.toNat && c.toNat ≤ 57

/-- Numeric value of a digit character. -/
def digitVal (c : Char) : Nat := c.toNat - 48

/-- Embeds Python `int(...)` applied to a slice of the date string: the
base-10 value when the slice is non-empty and all digits; `none` embeds the
`ValueError` raised otherwise.  (Python's `int` also accepts surrounding
whitespace and a sign, which cannot occur in the slices of the digit
strings considered here.) -/
def natOfDigits (cs : List Char) : Option Nat :=
  if cs.isEmpty then none
  else if cs.all isDigitCharB then
    some (cs.foldl (fun a c => a * 10 + digitVal c) 0)
  else none

/-- Embeds `get_date_string_format`, lines 267-277:
`date_datetime.strftime('%Y%m%d')` — the year rendered on 4 digits and the
month and day on 2 digits, zero-padded (the `strftime` format-code table's
documented rendering; all dates this program formats have four-digit
years). -/
def getDateStringFormat (dt : Date) : List Char :=
  [digitChar (dt.y / 1000 % 10), digitChar (dt.y / 100 % 10),
   digitChar (dt.y / 10 % 10), digitChar (dt.y % 10),
   digitChar (dt.m / 10 % 10), digitChar (dt.m % 10),
   digitChar (dt.d / 10 % 10), digitChar (dt.d % 10)]

/-- Embeds `get_datetime_format`, lines 251-265:
`year = int(date_string[0:4]); month = int(date_string[4:6]);
day = int(date_string[6:8]); datetime.date(year, month, day)`.
`none` embeds the exceptions: `ValueError` from `int` on an empty or
non-digit slice, or from the `datetime.date` constructor on an invalid
date. -/
def getDatetimeFormat (s : List Char) : Option Date :=
  (natOfDigits (s.take 4)).bind fun y =>
    (natOfDigits ((s.drop 4).take 2)).bind fun m =>
      (natOfDigits ((s.drop 6).take 2)).bind fun d =>
        if (Date.mk y m d).valid then some (Date.mk y m d) else none

/-! ## `select_assets`

`results_df` rows carry the index RIC and the `score` column (scores are
Python floats, idealised as `ℚ`; the trailing `iloc[:, -2:]` column slice
keeps the last two data columns of each row and does not affect which rows
are selected or their order, so rows are kept whole here).
-/

/-- A row of the scored-results dataframe: the RIC index value and the
`score` column. -/
structure ScoredRow where
  ric : String
  score : ℚ
deriving DecidableEq, Repr

/-- Embeds `results_df.sort_values(by = 'score', ascending = False)`,
line 72.  pandas `sort_values` computes an ascending argsort of the column
and, for `ascending=False`, reverses that indexer (`nargsort`:
`indexer = indexer[::-1]`).  The default `kind='quicksort'` delegates to
numpy, whose quicksort runs plain insertion sort — a stable sort — on
arrays of at most 15 elements, which covers the tables considered here, so
the ascending pass is the stable ascending sort. -/
def sortValuesDescByScore (rows : List ScoredRow) : List ScoredRow :=
  (List.insertionSort (fun a b => a.score ≤ b.score) rows).reverse

/-- Embeds `select_assets`, lines 62-73: sort descending by score and keep
the first `num_assets` rows (`iloc[:num_assets, -2:]`; pandas slicing
silently returns fewer rows when the table is shorter than `num_assets`). -/
def selectAssets (results : List ScoredRow) (numAssets : Nat) : List ScoredRow :=
  (sortValuesDescByScore results).take numAssets

/-- Embeds `self.ric_list = self.selected_assets.index.values.tolist()`. -/
def ricList (results : List ScoredRow) (numAssets : Nat) : List String :=
  (selectAssets results numAssets).map ScoredRow.ric

/-- The five-row table with the tied scores `[5, 5, 3, 2, 1]` used by the
spec's stability example. -/
def tieTable : List ScoredRow :=
  [⟨"A", 5⟩, ⟨"B", 5⟩, ⟨"C", 3⟩, ⟨"D", 2⟩, ⟨"E", 1⟩]

/-- A two-row table, for selection with fewer than `k` candidates. -/
def fewTable : List ScoredRow :=
  [⟨"A", 5⟩, ⟨"B", 4⟩]

instance : IsTotal ScoredRow (fun a b => a.score ≤ b.score) :=
  ⟨fun a b => le_total a.score b.score⟩

instance : IsTrans ScoredRow (fun a b => a.score ≤ b.score) :=
  ⟨fun _ _ _ hab hbc => le_trans hab hbc⟩

/-! ## `get_asset_performance`: the returns table

After the two price fetches and `change_column_name`, the dataframe `df` has
column 0 `Instrument`, column 1 the start-date close prices and column 2 the
end-date close prices.  A row is embedded as a `PriceRow`; prices (floats)
are idealised as `ℚ`.
-/

/-- A row of the fetched price dataframe: `Instrument`, start-date close
(column 1) and end-date close (column 2). -/
structure PriceRow where
  instrument : String
  startPrice : ℚ
  endPrice : ℚ
deriving DecidableEq, Repr

/-- A row of the returned performance dataframe, with the `'return'` column
added by line 145: `df['return'] = ((df.iloc[:,2] / df.iloc[:,1]) - 1) * 100`.
(The `'log_return'` column of line 147 is real-valued and embedded separately
as `logReturnColumn`.) -/
structure PerfRow where
  instrument : String
  startPrice : ℚ
  endPrice : ℚ
  ret : ℚ
deriving DecidableEq, Repr

/-- Embeds the `'return'` computation of `get_asset_performance`, line 145:
per row, `(end_close / start_close - 1) * 100`. -/
def getAssetPerformanceTable (rows : List PriceRow) : List PerfRow :=
  rows.map (fun r =>
    { instrument := r.instrument, startPrice := r.startPrice, endPrice := r.endPrice,
      ret := (r.endPrice / r.startPrice - 1) * 100 })

/-- Embeds the `'log_return'` column of `get_asset_performance`, line 147:
`np.log(df.iloc[:,2] / df.iloc[:,1]) * 100` per row.  The parameter `log`
interprets `np.log` on the per-row price quotient; it is instantiated with
the natural logarithm `Real.log` (what `np.log` computes) in the theorems. -/
def logReturnColumn (log : ℚ → ℝ) (rows : List PriceRow) : List ℝ :=
  rows.map (fun r => log (r.endPrice / r.startPrice) * 100)

/-- The spec's simple-return formula:
`simple_return_pct = (end_price / start_price − 1) × 100`. -/
def specSimpleReturnPct (s e : ℚ) : ℚ := (e / s - 1) * 100

/-! ## Portfolio model: `calculate_portfolio_return`, `get_portfolio_return` -/

/-- Embeds lines 182-184 of `calculate_portfolio_return`: the boolean mask
selects the rows whose `Instrument` equals `asset`, and `.values[0]` takes
the `'return'` value of the first such row; `none` embeds the `IndexError`
raised by `.values[0]` when no row matches. -/
def lookupReturn (perf : List PerfRow) (asset : String) : Option ℚ :=
  (perf.find? (fun row => row.instrument == asset)).map PerfRow.ret

/-- One iteration of the accumulation loop of `calculate_portfolio_return`,
line 186: `portfolio_return = portfolio_return + (profit / 100) * weight`,
propagating a failed lookup. -/
def portfolioStep (perf : List PerfRow) (acc : Option ℚ) (aw : String × ℚ) : Option ℚ :=
  match acc, lookupReturn perf aw.1 with
  | some a, some p => some (a + p / 100 * aw.2)
  | _, _ => none

/-- Embeds `calculate_portfolio_return`, lines 168-189: fold the loop over
the allocation items (Python dicts iterate in insertion order, so the
allocation is an association list) starting from `portfolio_return = 0`,
then multiply by 100. -/
def calculatePortfolioReturn (perf : List PerfRow) (alloc : List (String × ℚ)) : Option ℚ :=
  (alloc.foldl (portfolioStep perf) (some 0)).map (fun x => x * 100)

/-- Embeds `get_equally_weighted_portfolio`, lines 150-166: one entry per
`asset_performance` row mapping the instrument to `1 / len(asset_performance)`. -/
def getEquallyWeightedPortfolio (perf : List PerfRow) : List (String × ℚ) :=
  perf.map (fun row => (row.instrument, 1 / (perf.length : ℚ)))

/-- Embeds `get_portfolio_return`, lines 191-216.  The result type separates
a raised exception (`Except.error`, carrying the Python exception name) from
a returned value; the two `elif` error branches only `print` and fall off the
end of the function, which returns `None` (`Except.ok none`).  In the
`equally_weighted` branch, `1 / len(...)` raises `ZeroDivisionError` on an
empty performance table, and a failed `.values[0]` lookup raises
`IndexError`. -/
def getPortfolioReturn (perf : List PerfRow) (equallyWeighted : Bool)
    (allocationDict : Option (List (String × ℚ))) : Except String (Option ℚ) :=
  match equallyWeighted, allocationDict with
  | true, none =>
      if perf.length = 0 then Except.error ("ZeroDivisionError")
      else
        match calculatePortfolioReturn perf (getEquallyWeightedPortfolio perf) with
        | some x => Except.ok (some x)
        | none => Except.error ("IndexError")
  | false, some d =>
      match calculatePortfolioReturn perf d with
      | some x => Except.ok (some x)
      | none => Except.error ("IndexError")
  | false, none => Except.ok none
  | true, some _ => Except.ok none

/-- Performance table with simple returns 10 and −4 (prices 100 → 110 and
100 → 96), the spec's `portfolio_return` example. -/
def twoAssetPerf : List PerfRow :=
  [⟨"A", 100, 110, 10⟩, ⟨"B", 100, 96, -4⟩]

/-- The allocation `{A: 0.5, B: 0.5}` of the spec's example. -/
def halfHalfAlloc : List (String × ℚ) := [("A", 1/2), ("B", 1/2)]

/-! ## Retry loops: the price fetches of `get_asset_performance` and the
constituents fetch of `get_index` -/

/-- Embeds each retry loop of `get_asset_performance` (lines 120-128 and
lines 133-141): `count = 0; err = 'Error Object'; while err != None:
df, err = self.get_price_close(...); count += 1`.  `resp k` is the
provider's reply (close-price dataframe, error object) to the `k`-th
request, `k = 0` first.  The Python loop has **no** iteration bound, so it
is unrolled here with explicit `fuel`: the first component is the dataframe
of the first error-free reply among the first `fuel` replies (`none` when
all of them carry an error — the Python loop is still running), and the
second component is the number of requests issued in those iterations. -/
def priceCloseRetryLoop (resp : Nat → List (String × ℚ) × Option String) :
    Nat → Nat → Option (List (String × ℚ)) × Nat
  | 0, _ => (none, 0)
  | fuel + 1, k =>
    match (resp k).2 with
    | none => (some (resp k).1, 1)
    | some _ =>
      let r := priceCloseRetryLoop resp fuel (k + 1)
      (r.1, r.2 + 1)

/-- A provider whose every reply carries an error object. -/
def alwaysErrorResp : Nat → List (String × ℚ) × Option String :=
  fun _ => ([], some ("Error Object"))

/-- Embeds the loop of `get_index`, lines 42-56: `index_df` starts as an
empty dataframe; `while len(index_df) <= 1:` fetch the constituents
(rows are (RIC, name) pairs); `if count == 2: print(...); break`;
`count += 1`.  The loop exits as soon as a reply has more than one row and
otherwise breaks after the third request, falling through to `save_df` with
whatever the last reply held.  `iresp k` is the reply to the `k`-th
request; the result is the final dataframe and the number of requests
issued. -/
def getIndexLoop (iresp : Nat → List (String × String)) :
    List (String × String) × Nat :=
  let df0 := iresp 0
  if 1 < df0.length then (df0, 1)
  else
    let df1 := iresp 1
    if 1 < df1.length then (df1, 2)
    else (iresp 2, 3)

/-! ## `run_multiple_backtesting` -/

/-- Embeds the accumulation step of `run_multiple_backtesting`, lines
355-368.  Each `run_back_testing(years)` call returns a one-row dataframe
`[[index_performance, portfolio_return]]` (line 337); `trial i` stands for
the row of the `i`-th call.  On iteration `backtesting == 0` the dataframe
is created from that row; on later iterations the row is appended
(`all_returns_df.append(returns_df)`, which keeps existing rows in order
and adds the new row at the end).  Were the `i == 0` iteration never to
run, `all_returns_df` would be an unbound name (`UnboundLocalError` on
use), embedded as `none`. -/
def appendTrialRow (trial : Nat → ℚ × ℚ) (acc : Option (List (ℚ × ℚ))) (i : Nat) :
    Option (List (ℚ × ℚ)) :=
  if i = 0 then some [trial i] else acc.map (fun df => df ++ [trial i])

/-- Embeds `run_multiple_backtesting`, lines 341-376: fold the loop body
over `range(0, num_backtesting, 1)`, then `reset_index(drop = True)` —
which renumbers the rows `0..n-1` in their existing order, the identity on
a list of rows. -/
def runMultipleBacktesting (trial : Nat → ℚ × ℚ) (numBacktesting : Nat) :
    Option (List (ℚ × ℚ)) :=
  (List.range numBacktesting).foldl (appendTrialRow trial) none

end Backtesting

namespace Backtesting

/-- Helper: `daysInMonth` does not depend on the year except in February. -/
theorem daysInMonth_ne_two (y y' m : Nat) (hm : m ≠ 2) :
    daysInMonth y m = daysInMonth y' m := by
  simp [daysInMonth, hm]

/-- Helper: February has 29 days in leap years and 28 otherwise. -/
theorem daysInMonth_two (y : Nat) :
    daysInMonth y 2 = if isLeapYear y then 29 else 28 := by
  simp [daysInMonth]

/-- C3: for every reference date `R` and month interval `M > 0`, every
possible draw `r = randrange(days_between_dates)` (that is, `0 ≤ r` and
`r < days_between_dates`) puts the sampled backtesting start date in the
half-open window `[R, R + M months)`: its ordinal is at least `R`'s ordinal
and strictly below the ordinal of `R + relativedelta(months = M)`. -/
theorem backtesting_start_date_in_window (R : Date) (M r : Nat)
    (hR : R.valid) (hM : 0 < M)
    (hr : (r : Int) < daysBetween R (upperDateLimit R M)) :
    toOrdinal R ≤ backtestingStartOrdinal R r ∧
    (backtestingStartOrdinal R r : Int) < (toOrdinal (upperDateLimit R M) : Int) := by
  constructor
  · exact Nat.le_add_right _ _
  · unfold daysBetween at hr
    unfold backtestingStartOrdinal
    push_cast
    omega

/-- Witness for C3 at the boundary `M = 1`: reference date 2016-01-01,
draw `r = 0`. -/
theorem backtesting_start_date_in_window_witness :
    toOrdinal ⟨2016, 1, 1⟩ ≤ backtestingStartOrdinal ⟨2016, 1, 1⟩ 0 ∧
    (backtestingStartOrdinal ⟨2016, 1, 1⟩ 0 : Int) <
      (toOrdinal (upperDateLimit ⟨2016, 1, 1⟩ 1) : Int) :=
  backtesting_start_date_in_window ⟨2016, 1, 1⟩ 1 0 (by decide) (by decide) (by decide)

/-- C6: for every valid start date and every number of holding years, the
backtesting end date is the start date advanced by exactly that many calendar
years: the year advances by `years`, the month is unchanged, and the day is
unchanged except that a Feb-29 start maps to Feb-28 when the target year is
not a leap year. -/
theorem backtesting_end_date_adds_years (dt : Date) (years : Nat) (h : dt.valid) :
    (getBacktestingEndDate dt years).y = dt.y + years ∧
    (getBacktestingEndDate dt years).m = dt.m ∧
    (getBacktestingEndDate dt years).d =
      (if dt.m = 2 ∧ dt.d = 29 ∧ isLeapYear (dt.y + years) = false then 28 else dt.d) := by
  obtain ⟨Y, Mo, D⟩ := dt
  obtain ⟨-, -, -, -, -, hd⟩ := h
  refine ⟨rfl, rfl, ?_⟩
  simp only at hd ⊢
  show min D (daysInMonth (Y + years) Mo) = _
  by_cases hm : Mo = 2
  · subst hm
    rw [daysInMonth_two Y] at hd
    rw [daysInMonth_two (Y + years)]
    split_ifs at hd ⊢ <;> simp_all <;> omega
  · rw [daysInMonth_ne_two (Y + years) Y Mo hm]
    simp only [hm, false_and, if_false]
    omega

/-- Helper: the descending sort is pairwise non-increasing in score. -/
theorem sortValuesDescByScore_sorted (rows : List ScoredRow) :
    (sortValuesDescByScore rows).Pairwise (fun a b => b.score ≤ a.score) := by
  unfold sortValuesDescByScore
  rw [List.pairwise_reverse]
  exact List.sorted_insertionSort (fun a b => a.score ≤ b.score) rows

/-- Helper: the descending sort is a permutation of the input rows. -/
theorem sortValuesDescByScore_perm (rows : List ScoredRow) :
    (sortValuesDescByScore rows).Perm rows := by
  unfold sortValuesDescByScore
  exact (List.reverse_perm _).trans (List.perm_insertionSort _ rows)

/-- Helper: the descending sort preserves the number of rows. -/
theorem sortValuesDescByScore_length (rows : List ScoredRow) :
    (sortValuesDescByScore rows).length = rows.length := by
  simp [sortValuesDescByScore, List.length_insertionSort]

/-- C5 counterexample: selecting the top 3 of the table with scores
`[5, 5, 3, 2, 1]` returns the two score-5 assets in REVERSED original order
(`B` before `A`), not in their original order, so the sort used by
`select_assets` is not stable for ties. -/
theorem select_assets_tie_order_reversed :
    (selectAssets tieTable 3).map ScoredRow.ric = ["B", "A", "C"] ∧
    (selectAssets tieTable 3).map ScoredRow.ric ≠ ["A", "B", "C"] := by
  constructor <;> decide

/-- C5 (amended): `select_assets` returns the top `k` rows sorted by
descending score, truncated to `k` (length `min k n`, rows drawn without
change from the input, and every selected score at least every unselected
score), but the sort is not stable for ties: equal scores appear in
reversed original order, as on the spec's `[5, 5, 3, 2, 1]` example. -/
theorem select_assets_top_k_desc_ties_reversed (rows : List ScoredRow) (k : Nat) :
    (selectAssets rows k).Pairwise (fun a b => b.score ≤ a.score) ∧
    (selectAssets rows k).length = min k rows.length ∧
    (sortValuesDescByScore rows).Perm rows ∧
    (∀ a ∈ selectAssets rows k, ∀ b ∈ (sortValuesDescByScore rows).drop k,
      b.score ≤ a.score) ∧
    (selectAssets tieTable 3).map ScoredRow.ric = ["B", "A", "C"] := by
  refine ⟨?_, ?_, sortValuesDescByScore_perm rows, ?_, by decide⟩
  · exact List.Pairwise.sublist (List.take_sublist _ _) (sortValuesDescByScore_sorted rows)
  · rw [selectAssets, List.length_take, sortValuesDescByScore_length]
  · have h := sortValuesDescByScore_sorted rows
    rw [← List.take_append_drop k (sortValuesDescByScore rows)] at h
    exact (List.pairwise_append.mp h).2.2

/-- C7 counterexample: selecting the top 3 from a table with only 2 rows
silently returns both rows (no error of any kind is possible: the function
is total), so fewer than `k` assets are returned rather than a failure. -/
theorem select_assets_truncates_silently :
    selectAssets fewTable 3 = [⟨"A", 5⟩, ⟨"B", 4⟩] ∧
    (selectAssets fewTable 3).length < 3 := by
  constructor <;> decide

/-- C7 (amended): when the scored table has fewer than `k` rows,
`select_assets` silently returns all available rows (in descending score
order) instead of failing. -/
theorem select_assets_returns_all_when_fewer (rows : List ScoredRow) (k : Nat)
    (h : rows.length < k) :
    (selectAssets rows k).Perm rows ∧ (selectAssets rows k).length = rows.length := by
  have htake : selectAssets rows k = sortValuesDescByScore rows := by
    unfold selectAssets
    exact List.take_of_length_le (by rw [sortValuesDescByScore_length]; omega)
  rw [htake]
  exact ⟨sortValuesDescByScore_perm rows, sortValuesDescByScore_length rows⟩

/-- Witness for the amended C7 on the two-row table with `k = 3`. -/
theorem select_assets_returns_all_when_fewer_witness :
    (selectAssets fewTable 3).Perm fewTable ∧
    (selectAssets fewTable 3).length = fewTable.length :=
  select_assets_returns_all_when_fewer fewTable 3 (by decide)

/-- Helper: unfolding the accumulation loop of `calculate_portfolio_return`
when every allocated asset has a performance row. -/
theorem foldl_portfolioStep (perf : List PerfRow) (alloc : List (String × ℚ)) :
    ∀ a : ℚ, (∀ aw ∈ alloc, (lookupReturn perf aw.1).isSome) →
      alloc.foldl (portfolioStep perf) (some a) =
        some (a + (alloc.map
          (fun aw => aw.2 * ((lookupReturn perf aw.1).getD 0) / 100)).sum) := by
  induction alloc with
  | nil => intro a _; simp
  | cons aw alloc ih =>
    intro a h
    obtain ⟨p, hp⟩ := Option.isSome_iff_exists.mp (h aw (List.mem_cons_self _ _))
    have hstep : portfolioStep perf (some a) aw = some (a + p / 100 * aw.2) := by
      simp [portfolioStep, hp]
    rw [List.foldl_cons, hstep, ih _ (fun x hx => h x (List.mem_cons_of_mem _ hx))]
    rw [List.map_cons, List.sum_cons, hp, Option.getD_some]
    congr 1
    ring

/-- C2: for every allocation and every performance table holding a row for
each allocated asset, `calculate_portfolio_return` returns
`(Σ_i weight_i × simple_return_pct_i / 100) × 100`, where
`simple_return_pct_i` is the `'return'` value of asset `i`'s (first
matching) performance row. -/
theorem portfolio_return_weighted_sum (perf : List PerfRow)
    (alloc : List (String × ℚ))
    (h : ∀ aw ∈ alloc, (lookupReturn perf aw.1).isSome) :
    calculatePortfolioReturn perf alloc =
      some ((alloc.map
        (fun aw => aw.2 * ((lookupReturn perf aw.1).getD 0) / 100)).sum * 100) := by
  unfold calculatePortfolioReturn
  rw [foldl_portfolioStep perf alloc 0 h]
  simp

/-- Witness for C2: the allocation `{A: 0.5, B: 0.5}` with simple returns
10 and −4 yields exactly 3. -/
theorem portfolio_return_weighted_sum_witness :
    calculatePortfolioReturn twoAssetPerf halfHalfAlloc = some 3 := by
  rw [portfolio_return_weighted_sum twoAssetPerf halfHalfAlloc (by decide)]
  have e1 : lookupReturn twoAssetPerf ("A") = some 10 := rfl
  have e2 : lookupReturn twoAssetPerf ("B") = some (-4) := rfl
  simp only [halfHalfAlloc, List.map_cons, List.map_nil, e1, e2, Option.getD_some,
    List.sum_cons, List.sum_nil]
  norm_num

/-- Helper: the performance table has one row per price row. -/
theorem length_getAssetPerformanceTable (rows : List PriceRow) :
    (getAssetPerformanceTable rows).length = rows.length := by
  simp [getAssetPerformanceTable]

/-- Helper: the log-return column has one entry per price row. -/
theorem length_logReturnColumn (log : ℚ → ℝ) (rows : List PriceRow) :
    (logReturnColumn log rows).length = rows.length := by
  simp [logReturnColumn]

/-- C4: for every fetched price table and every row `i` with positive start
price, the `'return'` entry of row `i` equals the spec's
`(end_price / start_price − 1) × 100`, and the `'log_return'` entry (with
`np.log` interpreted as the natural logarithm) equals
`ln(end_price / start_price) × 100`. -/
theorem asset_performance_return_formulas (rows : List PriceRow) (i : Nat)
    (hi : i < rows.length) (hpos : 0 < (rows.get ⟨i, hi⟩).startPrice) :
    ((getAssetPerformanceTable rows).get
        ⟨i, by rw [length_getAssetPerformanceTable]; exact hi⟩).ret
      = specSimpleReturnPct (rows.get ⟨i, hi⟩).startPrice (rows.get ⟨i, hi⟩).endPrice ∧
    (logReturnColumn (fun q => Real.log (q : ℝ)) rows).get
        ⟨i, by rw [length_logReturnColumn]; exact hi⟩
      = Real.log (((rows.get ⟨i, hi⟩).endPrice : ℝ) / ((rows.get ⟨i, hi⟩).startPrice : ℝ))
          * 100 := by
  constructor
  · simp only [getAssetPerformanceTable, List.get_map]
    rfl
  · simp only [logReturnColumn, List.get_map]
    push_cast
    ring

/-- Witness for C4 on the price row `("A", 100, 110)`. -/
theorem asset_performance_return_formulas_witness :
    ((getAssetPerformanceTable [⟨"A", 100, 110⟩]).get
        ⟨0, by rw [length_getAssetPerformanceTable]; decide⟩).ret
      = specSimpleReturnPct (([⟨"A", 100, 110⟩] : List PriceRow).get ⟨0, by decide⟩).startPrice
          (([⟨"A", 100, 110⟩] : List PriceRow).get ⟨0, by decide⟩).endPrice ∧
    (logReturnColumn (fun q => Real.log (q : ℝ)) [⟨"A", 100, 110⟩]).get
        ⟨0, by rw [length_logReturnColumn]; decide⟩
      = Real.log (((([⟨"A", 100, 110⟩] : List PriceRow).get ⟨0, by decide⟩).endPrice : ℝ)
          / ((([⟨"A", 100, 110⟩] : List PriceRow).get ⟨0, by decide⟩).startPrice : ℝ)) * 100 :=
  asset_performance_return_formulas [⟨"A", 100, 110⟩] 0 (by decide) (by decide)

/-- C10: for the two inconsistent argument combinations of
`get_portfolio_return` — `equally_weighted=True` with a non-`None`
`allocation_dict`, and `equally_weighted=False` with `allocation_dict=None` —
the call returns `None` (it neither raises nor produces a number). -/
theorem get_portfolio_return_inconsistent_returns_none
    (perf : List PerfRow) (alloc : List (String × ℚ)) :
    getPortfolioReturn perf true (some alloc) = Except.ok none ∧
    getPortfolioReturn perf false none = Except.ok none :=
  ⟨rfl, rfl⟩

/-- C1 counterexample: with a provider that errors on every attempt, the
price-fetch loop of `get_asset_performance` is still running after four
iterations, having issued 4 requests and produced nothing — it does not
stop at 3 attempts (and no `DataUnavailableError` exists in the program to
be raised). -/
theorem price_fetch_fourth_attempt :
    priceCloseRetryLoop alwaysErrorResp 4 0 = (none, 4) ∧
    ¬ (priceCloseRetryLoop alwaysErrorResp 4 0).2 ≤ 3 := by
  constructor <;> decide

/-- C1 (amended): with a provider whose every reply carries an error, each
price-fetch loop of `get_asset_performance` retries without bound — after
any number `fuel` of iterations it has issued exactly `fuel` requests and
produced no result, raising nothing — while the constituents fetch of
`get_index`, with a provider whose replies never exceed one row, stops
after exactly 3 requests and proceeds with the third reply as its data
instead of failing. -/
theorem price_fetch_unbounded_index_fetch_capped
    (resp : Nat → List (String × ℚ) × Option String)
    (iresp : Nat → List (String × String))
    (hr : ∀ k, (resp k).2 ≠ none) (hi : ∀ k, (iresp k).length ≤ 1) :
    (∀ fuel k, priceCloseRetryLoop resp fuel k = (none, fuel)) ∧
    getIndexLoop iresp = (iresp 2, 3) := by
  constructor
  · intro fuel
    induction fuel with
    | zero => intro k; rfl
    | succ n ih =>
      intro k
      unfold priceCloseRetryLoop
      match h : (resp k).2 with
      | none => exact absurd h (hr k)
      | some e => simp [h, ih (k + 1)]
  · unfold getIndexLoop
    have h0 : ¬ 1 < (iresp 0).length := by have := hi 0; omega
    have h1 : ¬ 1 < (iresp 1).length := by have := hi 1; omega
    simp [h0, h1]

/-- Witness for the amended C1: the always-error price provider and the
always-empty constituents provider. -/
theorem price_fetch_unbounded_index_fetch_capped_witness :
    priceCloseRetryLoop alwaysErrorResp 5 0 = (none, 5) ∧
    getIndexLoop (fun _ => []) = ([], 3) :=
  ⟨(price_fetch_unbounded_index_fetch_capped alwaysErrorResp (fun _ => [])
      (fun _ => by simp [alwaysErrorResp]) (fun _ => by simp)).1 5 0,
   (price_fetch_unbounded_index_fetch_capped alwaysErrorResp (fun _ => [])
      (fun _ => by simp [alwaysErrorResp]) (fun _ => by simp)).2⟩

/-- C8: for every `num_backtesting ≥ 1`, `run_multiple_backtesting`
produces the summary rows of trials `0..n-1` in trial-execution order: the
result is exactly the list `[trial 0, …, trial (n-1)]`, it has `n` rows,
and after the final `reset_index` the row at position `i` is the pair of
trial `i`. -/
theorem run_multiple_backtesting_trial_order (trial : Nat → ℚ × ℚ) (n : Nat)
    (h : 1 ≤ n) :
    runMultipleBacktesting trial n = some ((List.range n).map trial) ∧
    ((List.range n).map trial).length = n ∧
    ∀ i, ∀ hi : i < n,
      ((List.range n).map trial).get ⟨i, by simpa using hi⟩ = trial i := by
  refine ⟨?_, by simp, ?_⟩
  · unfold runMultipleBacktesting
    induction n with
    | zero => omega
    | succ m ih =>
      rcases Nat.eq_zero_or_pos m with hm | hm
      · subst hm
        simp [List.range_succ, appendTrialRow]
      · rw [List.range_succ, List.foldl_append, ih (by omega)]
        have hm0 : m ≠ 0 := by omega
        simp [appendTrialRow, hm0, List.range_succ]
  · intro i hi
    simp

/-- Witness for C8 with three trials. -/
theorem run_multiple_backtesting_trial_order_witness :
    runMultipleBacktesting (fun i => ((i : ℚ), (i : ℚ) + 1)) 3 =
      some ((List.range 3).map (fun i => ((i : ℚ), (i : ℚ) + 1))) ∧
    ((List.range 3).map (fun i => ((i : ℚ), (i : ℚ) + 1))).length = 3 ∧
    ∀ i, ∀ hi : i < 3,
      ((List.range 3).map (fun i => ((i : ℚ), (i : ℚ) + 1))).get ⟨i, by simpa using hi⟩
        = ((i : ℚ), (i : ℚ) + 1) :=
  run_multiple_backtesting_trial_order (fun i => ((i : ℚ), (i : ℚ) + 1)) 3 (by decide)

/-- Helper: no month has more than 31 days. -/
theorem daysInMonth_le_31 (y m : Nat) : daysInMonth y m ≤ 31 := by
  unfold daysInMonth
  split_ifs <;> omega

/-- Helper: `digitChar` produces digit characters. -/
theorem isDigitCharB_digitChar : ∀ n, n < 10 → isDigitCharB (digitChar n) = true := by
  decide

/-- Helper: `digitVal` inverts `digitChar` on digits. -/
theorem digitVal_digitChar : ∀ n, n < 10 → digitVal (digitChar n) = n := by
  decide

/-- Helper: `digitChar` inverts `digitVal` on digit characters. -/
theorem digitChar_digitVal (c : Char) (h : isDigitCharB c = true) :
    digitChar (digitVal c) = c := by
  have h48 : 48 ≤ c.toNat ∧ c.toNat ≤ 57 := by
    unfold isDigitCharB at h
    simp only [Bool.and_eq_true, decide_eq_true_eq] at h
    exact h
  unfold digitChar digitVal
  have e : 48 + (c.toNat - 48) = c.toNat := by omega
  rw [e]
  have hvalid : c.toNat.isValidChar := Or.inl (by omega)
  unfold Char.ofNat
  rw [dif_pos hvalid]
  unfold Char.ofNatAux
  apply Char.eq_of_val_eq
  apply UInt32.toNat.inj
  show (BitVec.ofNatLt c.toNat _).toNat = c.val.toNat
  rw [BitVec.toNat_ofNatLt]
  rfl

/-- Helper: digit characters have value below 10. -/
theorem digitVal_lt_ten (c : Char) (h : isDigitCharB c = true) : digitVal c < 10 := by
  unfold isDigitCharB at h
  simp only [Bool.and_eq_true, decide_eq_true_eq] at h
  unfold digitVal
  omega

/-- Helper: parsing the 4-digit zero-padded rendering of `n ≤ 9999`. -/
theorem natOfDigits_pad4 (n : Nat) (h : n ≤ 9999) :
    natOfDigits [digitChar (n / 1000 % 10), digitChar (n / 100 % 10),
      digitChar (n / 10 % 10), digitChar (n % 10)] = some n := by
  have h3 : n / 1000 % 10 < 10 := Nat.mod_lt _ (by omega)
  have h2 : n / 100 % 10 < 10 := Nat.mod_lt _ (by omega)
  have h1 : n / 10 % 10 < 10 := Nat.mod_lt _ (by omega)
  have h0 : n % 10 < 10 := Nat.mod_lt _ (by omega)
  unfold natOfDigits
  rw [if_neg (by simp), if_pos (by
    simp [List.all_cons, isDigitCharB_digitChar _ h3, isDigitCharB_digitChar _ h2,
      isDigitCharB_digitChar _ h1, isDigitCharB_digitChar _ h0])]
  simp only [List.foldl_cons, List.foldl_nil,
    digitVal_digitChar _ h3, digitVal_digitChar _ h2,
    digitVal_digitChar _ h1, digitVal_digitChar _ h0]
  congr 1
  omega

/-- Helper: parsing the 2-digit zero-padded rendering of `n ≤ 99`. -/
theorem natOfDigits_pad2 (n : Nat) (h : n ≤ 99) :
    natOfDigits [digitChar (n / 10 % 10), digitChar (n % 10)] = some n := by
  have h1 : n / 10 % 10 < 10 := Nat.mod_lt _ (by omega)
  have h0 : n % 10 < 10 := Nat.mod_lt _ (by omega)
  unfold natOfDigits
  rw [if_neg (by simp), if_pos (by
    simp [List.all_cons, isDigitCharB_digitChar _ h1, isDigitCharB_digitChar _ h0])]
  simp only [List.foldl_cons, List.foldl_nil,
    digitVal_digitChar _ h1, digitVal_digitChar _ h0]
  congr 1
  omega

/-- Helper: inversion of `natOfDigits` on a four-character slice. -/
theorem natOfDigits4_inv (a b c d : Char) (n : Nat)
    (h : natOfDigits [a, b, c, d] = some n) :
    isDigitCharB a = true ∧ isDigitCharB b = true ∧ isDigitCharB c = true ∧
    isDigitCharB d = true ∧
    n = ((digitVal a * 10 + digitVal b) * 10 + digitVal c) * 10 + digitVal d := by
  unfold natOfDigits at h
  rw [if_neg (by simp)] at h
  by_cases hall : ([a, b, c, d].all isDigitCharB) = true
  · have hs := hall
    simp only [List.all_cons, List.all_nil, Bool.and_true, Bool.and_eq_true] at hs
    obtain ⟨ha, hb, hc, hd⟩ := hs
    rw [if_pos hall] at h
    simp only [List.foldl_cons, List.foldl_nil] at h
    have hn := Option.some.inj h
    exact ⟨ha, hb, hc, hd, by omega⟩
  · rw [if_neg hall] at h
    exact absurd h (by simp)

/-- Helper: inversion of `natOfDigits` on a two-character slice. -/
theorem natOfDigits2_inv (a b : Char) (n : Nat)
    (h : natOfDigits [a, b] = some n) :
    isDigitCharB a = true ∧ isDigitCharB b = true ∧
    n = digitVal a * 10 + digitVal b := by
  unfold natOfDigits at h
  rw [if_neg (by simp)] at h
  by_cases hall : ([a, b].all isDigitCharB) = true
  · have hs := hall
    simp only [List.all_cons, List.all_nil, Bool.and_true, Bool.and_eq_true] at hs
    obtain ⟨ha, hb⟩ := hs
    rw [if_pos hall] at h
    simp only [List.foldl_cons, List.foldl_nil] at h
    have hn := Option.some.inj h
    exact ⟨ha, hb, by omega⟩
  · rw [if_neg hall] at h
    exact absurd h (by simp)

/-- C9: the date-format conversions are mutually inverse.  Formatting any
valid `datetime.date` with `get_date_string_format` and parsing the result
with `get_datetime_format` returns the same date; parsing any 8-character
string that `get_datetime_format` accepts (all digits denoting an existing
calendar date) and formatting the parsed date returns the same string. -/
theorem date_format_roundtrip :
    (∀ dt : Date, dt.valid →
      getDatetimeFormat (getDateStringFormat dt) = some dt) ∧
    (∀ (s : List Char) (dt : Date), s.length = 8 →
      getDatetimeFormat s = some dt → getDateStringFormat dt = s) := by
  constructor
  · intro dt hv
    obtain ⟨y, m, d⟩ := dt
    obtain ⟨hy1, hy2, hm1, hm2, hd1, hd2⟩ := hv
    simp only at hy1 hy2 hm1 hm2 hd1 hd2
    have hd31 : d ≤ 31 := le_trans hd2 (daysInMonth_le_31 y m)
    unfold getDateStringFormat getDatetimeFormat
    simp only [List.take_succ_cons, List.take_zero, List.drop_succ_cons, List.drop_zero]
    rw [natOfDigits_pad4 y (by omega), natOfDigits_pad2 m (by omega),
      natOfDigits_pad2 d (by omega)]
    simp only [Option.some_bind]
    rw [if_pos (show (Date.mk y m d).valid from ⟨hy1, hy2, hm1, hm2, hd1, hd2⟩)]
  · intro s dt hlen hparse
    obtain ⟨c1, c2, c3, c4, c5, c6, c7, c8, rfl⟩ :
        ∃ a b c d e f g h0, s = [a, b, c, d, e, f, g, h0] := by
      rcases s with _ | ⟨c1, s⟩
      · simp only [List.length_nil] at hlen; omega
      rcases s with _ | ⟨c2, s⟩
      · simp only [List.length_cons, List.length_nil] at hlen; omega
      rcases s with _ | ⟨c3, s⟩
      · simp only [List.length_cons, List.length_nil] at hlen; omega
      rcases s with _ | ⟨c4, s⟩
      · simp only [List.length_cons, List.length_nil] at hlen; omega
      rcases s with _ | ⟨c5, s⟩
      · simp only [List.length_cons, List.length_nil] at hlen; omega
      rcases s with _ | ⟨c6, s⟩
      · simp only [List.length_cons, List.length_nil] at hlen; omega
      rcases s with _ | ⟨c7, s⟩
      · simp only [List.length_cons, List.length_nil] at hlen; omega
      rcases s with _ | ⟨c8, s⟩
      · simp only [List.length_cons, List.length_nil] at hlen; omega
      rcases s with _ | ⟨c9, s⟩
      · exact ⟨c1, c2, c3, c4, c5, c6, c7, c8, rfl⟩
      · simp only [List.length_cons] at hlen; omega
    unfold getDatetimeFormat at hparse
    simp only [List.take_succ_cons, List.take_zero, List.drop_succ_cons,
      List.drop_zero] at hparse
    cases hy : natOfDigits [c1, c2, c3, c4] with
    | none => rw [hy] at hparse; exact absurd hparse (by simp)
    | some yv =>
    cases hm : natOfDigits [c5, c6] with
    | none => rw [hy, hm] at hparse; exact absurd hparse (by simp)
    | some mv =>
    cases hdd : natOfDigits [c7, c8] with
    | none => rw [hy, hm, hdd] at hparse; exact absurd hparse (by simp)
    | some dv =>
    rw [hy, hm, hdd] at hparse
    simp only [Option.some_bind] at hparse
    by_cases hval : (Date.mk yv mv dv).valid
    · rw [if_pos hval] at hparse
      have hdt : dt = Date.mk yv mv dv := (Option.some.inj hparse).symm
      subst hdt
      obtain ⟨ha1, ha2, ha3, ha4, hyval⟩ := natOfDigits4_inv c1 c2 c3 c4 yv hy
      obtain ⟨hb1, hb2, hmval⟩ := natOfDigits2_inv c5 c6 mv hm
      obtain ⟨he1, he2, hdval⟩ := natOfDigits2_inv c7 c8 dv hdd
      have d1 := digitVal_lt_ten c1 ha1
      have d2 := digitVal_lt_ten c2 ha2
      have d3 := digitVal_lt_ten c3 ha3
      have d4 := digitVal_lt_ten c4 ha4
      have d5 := digitVal_lt_ten c5 hb1
      have d6 := digitVal_lt_ten c6 hb2
      have d7 := digitVal_lt_ten c7 he1
      have d8 := digitVal_lt_ten c8 he2
      unfold getDateStringFormat
      simp only
      rw [show yv / 1000 % 10 = digitVal c1 from by omega,
        show yv / 100 % 10 = digitVal c2 from by omega,
        show yv / 10 % 10 = digitVal c3 from by omega,
        show yv % 10 = digitVal c4 from by omega,
        show mv / 10 % 10 = digitVal c5 from by omega,
        show mv % 10 = digitVal c6 from by omega,
        show dv / 10 % 10 = digitVal c7 from by omega,
        show dv % 10 = digitVal c8 from by omega,
        digitChar_digitVal c1 ha1, digitChar_digitVal c2 ha2,
        digitChar_digitVal c3 ha3, digitChar_digitVal c4 ha4,
        digitChar_digitVal c5 hb1, digitChar_digitVal c6 hb2,
        digitChar_digitVal c7 he1, digitChar_digitVal c8 he2]
    · rw [if_neg hval] at hparse
      exact absurd hparse (by simp)

/-- Witness for C9 on the date 2016-02-29 and its string `"20160229"`. -/
theorem date_format_roundtrip_witness :
    getDatetimeFormat (getDateStringFormat ⟨2016, 2, 29⟩) = some ⟨2016, 2, 29⟩ ∧
    getDateStringFormat ⟨2016, 2, 29⟩ = ['2', '0', '1', '6', '0', '2', '2', '9'] :=
  ⟨date_format_roundtrip.1 ⟨2016, 2, 29⟩ (by decide),
   date_format_roundtrip.2 ['2', '0', '1', '6', '0', '2', '2', '9'] ⟨2016, 2, 29⟩
     (by decide) (by decide)⟩

/-- Witness for C6: 2016-02-29 advanced by one year is 2017-02-28. -/
theorem backtesting_end_date_adds_years_witness :
    (getBacktestingEndDate ⟨2016, 2, 29⟩ 1).y = 2016 + 1 ∧
    (getBacktestingEndDate ⟨2016, 2, 29⟩ 1).m = 2 ∧
    (getBacktestingEndDate ⟨2016, 2, 29⟩ 1).d =
      (if (2 : Nat) = 2 ∧ (29 : Nat) = 29 ∧ isLeapYear (2016 + 1) = false then 28 else 29) :=
  backtesting_end_date_adds_years ⟨2016, 2, 29⟩ 1 (by decide)

end Backtesting
